import Mathlib

/-!
# Verification of the accessibility-scanner core pipeline

Shallow embedding of the functions in `utils.py` and of the consolidated
scan logic in `app.py` of the ai-accessibility-scanner repository, together
with theorems settling the spec claims about them.

Strings are modelled as `List Char`.  External services (the browser fetch,
the HTTP fallback, the language-model call, the billing provider) are
modelled as explicit oracle arguments; Python exceptions are modelled with
`Except String`.
-/

set_option autoImplicit false

namespace Scanner

/-! ## Chunker: `split_html_safely` (utils.py lines 158-174) -/

/-- The per-character tag-depth increment of the chunker loop:
`+1` on `'<'`, `-1` on `'>'`, `0` otherwise. -/
def tagDelta (c : Char) : Int :=
  if c = '<' then 1 else if c = '>' then -1 else 0

/-- Cumulative tag-depth counter of a string: the value of `tag_count`
after the chunker loop has consumed the string. -/
def tagDepth (l : List Char) : Int :=
  (l.map tagDelta).sum

/-- The chunker loop of `split_html_safely`: consumes the remaining input
one character at a time, keeping the current buffer `cur` and the running
tag-depth `d`; closes a chunk when the buffer has reached `csize`
characters and the tag-depth is 0; any trailing buffer becomes a final
chunk. -/
def splitGo (csize : Nat) : List Char → List Char → Int → List (List Char)
  | [], cur, _ => if cur = [] then [] else [cur]
  | ch :: rest, cur, d =>
    if csize ≤ (cur ++ [ch]).length ∧ d + tagDelta ch = 0 then
      (cur ++ [ch]) :: splitGo csize rest [] (d + tagDelta ch)
    else
      splitGo csize rest (cur ++ [ch]) (d + tagDelta ch)

/-- `split_html_safely(html_content, chunk_size)`. -/
def split_html_safely (html : List Char) (csize : Nat) : List (List Char) :=
  splitGo csize html [] 0

/-! ## URL normalizer: `normalize_url` (utils.py lines 115-122)

`normalize_url` delegates URL parsing to `urllib.parse.urlparse`; the model
below embeds the parts of CPython's `urlsplit` that `normalize_url`
observes: stripping of leading C0-control/space characters, removal of
tab/CR/LF anywhere, detection of a scheme (`[a-zA-Z][a-zA-Z0-9+.-]*`
before the first `':'`), extraction of the network-location component
(after a leading `"//"`, up to the first `'/'`, `'?'` or `'#'`), and the
`ValueError` raised on a netloc containing `'['` without `']'` or vice
versa.  Finer host validation is version-specific and not exercised by
any input considered here. -/

/-- Python `str.strip()` whitespace: the characters `str.strip()` removes
(`str.isspace()` characters — ASCII whitespace, the C1 separators
`\x1c`-`\x1f`, NEL `\x85`, NBSP `\xa0`, and the Unicode space
separators), checked codepoint-by-codepoint against CPython. -/
def isPyWS (c : Char) : Bool :=
  (9 ≤ c.toNat && c.toNat ≤ 13) || (28 ≤ c.toNat && c.toNat ≤ 32) ||
    c.toNat = 133 || c.toNat = 160 || c.toNat = 0x1680 ||
    (0x2000 ≤ c.toNat && c.toNat ≤ 0x200a) ||
    c.toNat = 0x2028 || c.toNat = 0x2029 || c.toNat = 0x202f ||
    c.toNat = 0x205f || c.toNat = 0x3000

/-- `str.lstrip()`. -/
def lstripWS (l : List Char) : List Char := l.dropWhile isPyWS

/-- `str.rstrip()`. -/
def rstripWS (l : List Char) : List Char := (l.reverse.dropWhile isPyWS).reverse

/-- `str.strip()`. -/
def pyStrip (l : List Char) : List Char := rstripWS (lstripWS l)

/-- A C0 control character or space (`urlsplit` strips these from the
left of its input). -/
def isC0OrSpace (c : Char) : Bool := c.val ≤ 32

/-- Tab, CR and LF (`urlsplit` removes these anywhere in its input). -/
def isUnsafeByte (c : Char) : Bool := c = '\t' || c = '\r' || c = '\n'

/-- Removal of tab/CR/LF. -/
def cleanFilter (l : List Char) : List Char := l.filter (fun c => !isUnsafeByte c)

/-- The input sanitation `urlsplit` performs before parsing. -/
def cleanUrl (l : List Char) : List Char := cleanFilter (l.dropWhile isC0OrSpace)

/-- A character allowed in a URL scheme. -/
def isSchemeChar (c : Char) : Bool :=
  c.isAlpha || c.isDigit || c = '+' || c = '-' || c = '.'

/-- Split a string at its first `':'`, returning the prefix and the
remainder (`url.find(':')` in `urlsplit`). -/
def schemeLoop : List Char → Option (List Char × List Char)
  | [] => none
  | c :: rest =>
    if c = ':' then some ([], rest)
    else
      match schemeLoop rest with
      | some (pre, r) => some (c :: pre, r)
      | none => none

/-- Scheme detection of `urlsplit`: a scheme is recognised when a `':'`
exists, its prefix is non-empty, starts with an ASCII letter and consists
of scheme characters; the scheme is lower-cased. -/
def splitScheme (l : List Char) : Option (List Char) × List Char :=
  match schemeLoop l with
  | some (pre, r) =>
    if pre ≠ [] ∧ (pre.take 1).all Char.isAlpha ∧ pre.all isSchemeChar then
      (some (pre.map Char.toLower), r)
    else (none, l)
  | none => (none, l)

/-- True of characters that do not terminate the netloc component. -/
def notNetlocDelim (c : Char) : Bool := !(c = '/' || c = '?' || c = '#')

/-- Netloc extraction of `urlsplit`: present only after a leading `"//"`,
extending to the first `'/'`, `'?'` or `'#'`. -/
def splitNetloc : List Char → List Char
  | '/' :: '/' :: r => r.takeWhile notNetlocDelim
  | _ => []

/-- The `"Invalid IPv6 URL"` condition of `urlsplit`: one bracket present
in the netloc without its partner. -/
def bracketMismatch (netloc : List Char) : Bool :=
  (netloc.any (fun c => c = '[') && !netloc.any (fun c => c = ']')) ||
    (netloc.any (fun c => c = ']') && !netloc.any (fun c => c = '['))

/-- The `(scheme, netloc)` observation of `urlparse(l)`: `some` scheme iff
`parsed.scheme` is non-empty, together with `parsed.netloc`; `.error` when
`urlsplit` raises `ValueError`. -/
def parseSN (l : List Char) : Except String (Option (List Char) × List Char) :=
  match splitScheme (cleanUrl l) with
  | (sch, rest) =>
    let netloc := splitNetloc rest
    if bracketMismatch netloc then .error "Invalid IPv6 URL"
    else .ok (sch, netloc)

/-- `"https://"`, the scheme prefix `normalize_url` prepends. -/
def httpsPrefix : List Char := ['h', 't', 't', 'p', 's', ':', '/', '/']

/-- `normalize_url(url)`: parse the stripped input; when it has no scheme,
prepend `https://` to the (unstripped) input and re-parse; raise
`ValueError` when the parse consulted has an empty netloc; otherwise
return the string whose parse was consulted (the original input in the
scheme-present branch, the prefixed input otherwise). -/
def normalize_url (url : List Char) : Except String (List Char) :=
  match parseSN (pyStrip url) with
  | .error e => .error e
  | .ok (some _, netloc) =>
    if netloc = [] then .error "Invalid URL: No domain specified" else .ok url
  | .ok (none, _) =>
    match parseSN (httpsPrefix ++ url) with
    | .error e => .error e
    | .ok (_, netloc2) =>
      if netloc2 = [] then .error "Invalid URL: No domain specified"
      else .ok (httpsPrefix ++ url)

/-! ## Analyzer: `analyze_accessibility` (utils.py lines 176-251)

The language-model call (`client.chat.completions.create` plus
`json.loads`) behind each chunk is modelled by an oracle indexed by a
global call counter; a successfully decoded JSON object is a
`PartialResult`, a transport/model/decoding exception is `.error`.  The
BeautifulSoup count of `<img>` elements without an `alt` attribute is
passed in as the parameter `missingAlt`.  Numeric values are modelled
exactly (integers and rationals). -/

/-- An element of the `issues` array of a decoded model response
(`category` is optional: the merge step fills in `"Unknown"`). -/
structure Issue where
  criterion : String
  description : String
  severity : String
  fix : String
  code_fix : String
  category : Option String
  confidence : Int
deriving DecidableEq

/-- A successfully decoded per-chunk model response; absent JSON keys are
modelled by their `r.get(...)` defaults (`issues` `[]`, `score` `0`,
`summary` `""`). -/
structure PartialResult where
  issues : List Issue
  score : Int
  disclaimer : String
  summary : String
deriving DecidableEq

/-- The merged result dictionary built at the end of
`analyze_accessibility`. -/
structure Report where
  issues : List Issue
  score : Rat
  disclaimer : String
  summary : String
deriving DecidableEq

/-- The synthesized missing-alt issue (utils.py lines 235-243). -/
def staticAltIssue (missingAlt : Nat) : Issue :=
  { criterion := "1.1.1"
    description := "Found " ++ toString missingAlt ++ " images without alt text."
    severity := "High"
    fix := "Add descriptive alt text to all images."
    code_fix := "<img src=\"example.jpg\" alt=\"Description of image\">"
    category := some "Perceivable"
    confidence := 95 }

/-- The merge loop's per-issue category fallback
(`issue.get('category', 'Unknown')`). -/
def fillCategory (i : Issue) : Issue :=
  { i with category := some (i.category.getD "Unknown") }

/-- The static alt check plus merge step of `analyze_accessibility`
(utils.py lines 232-251): append the synthesized missing-alt issue to the
first partial when `missingAlt > 0`, then concatenate all issues (with
category fallback), accumulate `int(score) / len(results)` per partial,
take the first partial's disclaimer, and concatenate summaries with
newlines.  `none` models the `IndexError` raised by `results[0]` when
there are no partial results. -/
def mergeResults (results : List PartialResult) (missingAlt : Nat) : Option Report :=
  match results with
  | [] => none
  | r0 :: rest =>
    let withAlt :=
      (if 0 < missingAlt
        then { r0 with issues := r0.issues ++ [staticAltIssue missingAlt] }
        else r0) :: rest
    let n : Rat := (withAlt.length : Rat)
    some
      { issues := (withAlt.map (fun r => r.issues.map fillCategory)).flatten
        score := (withAlt.map (fun r => (r.score : Rat) / n)).sum
        disclaimer := r0.disclaimer
        summary := String.join (withAlt.map (fun r => r.summary ++ "\n")) }

/-- Fixed-size slicing, fuel-driven for structural recursion: each round
consumes at least one character, so fuel `l.length` is never exhausted. -/
def sliceChunksAux (k : Nat) : Nat → List Char → List (List Char)
  | _, [] => []
  | 0, l => [l]
  | fuel + 1, c :: rest =>
    (c :: rest.take k) :: sliceChunksAux k fuel ((c :: rest).drop (k + 1))

/-- Fixed-size slicing
`[html[i:i+k+1] for i in range(0, len(html), k+1)]`. -/
def sliceChunks (k : Nat) (l : List Char) : List (List Char) :=
  sliceChunksAux k l.length l

/-- The chunk list `analyze_accessibility` iterates over: 5000-character
slices, restricted to the first slice in abbreviated mode. -/
def chunkHtml (html : List Char) (abbreviated : Bool) : List (List Char) :=
  if abbreviated then (sliceChunks 4999 html).take 1 else sliceChunks 4999 html

/-- The per-chunk loop of `analyze_accessibility` (utils.py lines
185-230) followed by the merge step: `k` is the global count of model
calls made so far, `acc` the decoded partials in reverse order.  A failed
model call is caught by the `except` branch and returns the error
dictionary `{"error": "AI response failed: ...", ...}` — a normal return,
written `.ok (.error ...)`; the outer `.error` constructor is reserved
for Python exceptions escaping the function body (the `IndexError` of the
merge step on an empty chunk list). -/
def analyzeGo (oracle : Nat → List Char → Except String PartialResult)
    (missingAlt : Nat) :
    List (List Char) → Nat → List PartialResult →
      Nat × Except String (Except String Report)
  | [], k, acc =>
    match mergeResults acc.reverse missingAlt with
    | none => (k, .error "IndexError: list index out of range")
    | some rep => (k, .ok (.ok rep))
  | c :: cs, k, acc =>
    match oracle k c with
    | .error e => (k + 1, .ok (.error ("AI response failed: " ++ e)))
    | .ok p => analyzeGo oracle missingAlt cs (k + 1) (p :: acc)

/-- The `@backoff.on_exception(backoff.expo, Exception, max_tries=3)`
decorator: re-invoke the function body when it raises, up to `tries`
invocations, re-raising the last exception when the budget is spent. -/
def analyzeRetry (oracle : Nat → List Char → Except String PartialResult)
    (missingAlt : Nat) (chunks : List (List Char)) :
    Nat → Nat → Nat × Except String (Except String Report)
  | 0, k => (k, .error "backoff: max tries exhausted")
  | n + 1, k =>
    match analyzeGo oracle missingAlt chunks k [] with
    | (k', .error e) =>
      if n = 0 then (k', .error e) else analyzeRetry oracle missingAlt chunks n k'
    | (k', r) => (k', r)

/-- `analyze_accessibility(html_content, abbreviated)` under the model
oracle: returns the total number of model calls made together with the
outcome. -/
def analyze_accessibility (oracle : Nat → List Char → Except String PartialResult)
    (html : List Char) (abbreviated : Bool) (missingAlt : Nat) :
    Nat × Except String (Except String Report) :=
  analyzeRetry oracle missingAlt (chunkHtml html abbreviated) 3 0

/-- A partial result with an out-of-range score, as the unclamped
extractor may produce. -/
def c4Partial : PartialResult :=
  { issues := [], score := 200, disclaimer := "d", summary := "s" }

/-- The oracle whose model call always fails. -/
def c5OracleFail : Nat → List Char → Except String PartialResult :=
  fun _ _ => .error "boom"

/-! ### IEEE-754 binary64 model of the score accumulation

The line `merged["score"] += int(r.get("score", 0)) / len(results)` runs
in double-precision floating point: CPython's `int / int` produces the
correctly-rounded binary64 value of the exact quotient, and float
addition is the correctly-rounded value of the exact sum.  The model
below represents doubles by their exact rational values: `Repr64` is the
set of rationals with a 53-bit significand (exponent range unbounded —
no overflow or subnormal arises in the values considered here), and
`RoundsTo x fx` says `fx` is a nearest representable value to `x`
(tie-breaking left unconstrained; every rounding exercised below is
strictly nearest, which pins the result regardless of the tie rule).
The `score` field of `mergeResults` is the exact-arithmetic reading of
this accumulation; `FlMergeScore` is its floating-point reading. -/

/-- A rational value exactly representable in binary64: an integer
significand of magnitude at most `2^53` times a power of two. -/
def Repr64 (q : Rat) : Prop :=
  ∃ (m e : Int), q = (m : Rat) * (2 : Rat) ^ e ∧ |m| ≤ 2 ^ 53

/-- Round-to-nearest: `fx` is representable and no representable value
is closer to `x`. -/
def RoundsTo (x fx : Rat) : Prop :=
  Repr64 fx ∧ ∀ y, Repr64 y → |x - fx| ≤ |x - y|

/-- The floating-point evaluation of the score-merge loop: for each
partial score `s`, the correctly-rounded quotient `s / n` is added to
the accumulator by a correctly-rounded addition. -/
inductive FlMergeScore (n : Rat) : List Int → Rat → Rat → Prop where
  | nil (acc : Rat) : FlMergeScore n [] acc acc
  | cons (s : Int) (rest : List Int) (acc d acc2 out : Rat) :
      RoundsTo ((s : Rat) / n) d →
      RoundsTo (acc + d) acc2 →
      FlMergeScore n rest acc2 out →
      FlMergeScore n (s :: rest) acc out

/-! ## Page fetcher: `fetch_page_content` (utils.py lines 130-156)

The Playwright rendering strategy and the `requests.get` fallback are
oracles: `.ok` is the retrieved HTML (for the fallback, a 200 response
body — `raise_for_status` failures are `.error`), `.error` any raised
exception. -/

/-- The dictionary `fetch_page_content` returns: `{"success": True,
"html": ...}` or `{"success": False, "error": ..., "score": 0,
"summary": ...}`. -/
inductive FetchResult where
  | fetched (html : List Char)
  | fetchFailed (error : String) (score : Int) (summary : String)
deriving DecidableEq

/-- `fetch_page_content(target_url)`: normalize first (a `ValueError`
propagates — it is outside the `try`), return the primary strategy's HTML
on success, fall back to the plain GET on any primary exception, and
return the failure dictionary when both strategies fail. -/
def fetch_page_content (url : List Char)
    (primary fallback : Except String (List Char)) :
    Except String FetchResult :=
  match normalize_url url with
  | .error e => .error e
  | .ok target =>
    match primary with
    | .ok html => .ok (.fetched html)
    | .error _ =>
      match fallback with
      | .ok body => .ok (.fetched body)
      | .error _ =>
        .ok (.fetchFailed
          ("Failed to fetch " ++ String.mk target ++
            ". Check URL validity or try again later.")
          0 "Unable to scan due to fetch error.")

/-! ## Tier resolver: `get_user_tier` (utils.py lines 28-113)

The Stripe API is an oracle per attempt: the customer search yields an
exception, "not found" or a customer; the subscription list yields an
exception or a list of subscriptions, each carrying an optional status,
an optional price id under `items.data[0].price.id` and an optional
legacy `plan.id`. -/

/-- A subscription as `get_user_tier` observes it. -/
structure StripeSub where
  status : Option String
  itemPrice : Option String
  planId : Option String
deriving DecidableEq

/-- Python truthiness of an optional string (`None` and `""` are falsy). -/
def truthyOpt : Option String → Bool
  | none => false
  | some s => !s.isEmpty

/-- `status in ("active", "trialing")` — also the sort key of the
prioritisation. -/
def isActiveOrTrialing (s : StripeSub) : Bool :=
  s.status = some "active" || s.status = some "trialing"

/-- The `PRICE_ID_TO_TIER.get(price_id, "Free")` lookup for the dict
literal `{PRO_PRICE: "Pro", AGENCY_PRICE: "Agency"}`; on a key collision
the later (Agency) entry wins, and an unset env var (`none`) never
matches an actual price id. -/
def priceTier (proPrice agencyPrice : Option String) (p : String) : String :=
  if agencyPrice = some p then "Agency"
  else if proPrice = some p then "Pro"
  else "Free"

/-- Steps 3-5 of `_fetch` for the selected subscription: return `"Free"`
unless its status is active/trialing; take the price id from
`items.data[0].price.id`, falling back to the legacy `plan.id` when that
is falsy; return `"Free"` for a falsy price id, else map it through the
price dict. -/
def tierFromSub (proPrice agencyPrice : Option String) (sub : StripeSub) : String :=
  if !isActiveOrTrialing sub then "Free"
  else
    match (if truthyOpt sub.itemPrice then sub.itemPrice else sub.planId) with
    | none => "Free"
    | some p =>
      if p.isEmpty then "Free"
      else priceTier proPrice agencyPrice p

/-- Steps 2-5 of `_fetch` given the listed subscriptions: `"Free"` when
the list is empty, otherwise prioritise active/trialing subscriptions
(Python's stable sort with a 0/1 key equals filter-actives ++
filter-others) and resolve the first. -/
def tierFromSubs (proPrice agencyPrice : Option String)
    (subs : List StripeSub) : String :=
  if subs.isEmpty then "Free"
  else
    match subs.filter isActiveOrTrialing ++
        subs.filter (fun s => !isActiveOrTrialing s) with
    | [] => "Free"
    | sub :: _ => tierFromSub proPrice agencyPrice sub

/-- One invocation of the inner `_fetch`: resolve the customer (skipped
when a `customer_id` was passed), list subscriptions, and resolve the
tier from them; `.error` models a raised Stripe exception. -/
def fetchTier (proPrice agencyPrice : Option String) (haveCustomerId : Bool)
    (custLookup : Except String Bool)
    (subsLookup : Except String (List StripeSub)) : Except String String :=
  match (if haveCustomerId then Except.ok true else custLookup) with
  | .error e => .error e
  | .ok false => .ok "Free"
  | .ok true =>
    match subsLookup with
    | .error e => .error e
    | .ok subs => .ok (tierFromSubs proPrice agencyPrice subs)

/-- The retry wrapper around `_fetch`: `@backoff ... max_tries=3` retries
raised exceptions, and the outer `try/except` returns `"Free"` once the
budget is exhausted. -/
def tierRetry (proPrice agencyPrice : Option String) (haveCustomerId : Bool)
    (custLookup : Nat → Except String Bool)
    (subsLookup : Nat → Except String (List StripeSub)) :
    Nat → Nat → String
  | 0, _ => "Free"
  | n + 1, j =>
    match fetchTier proPrice agencyPrice haveCustomerId
        (custLookup j) (subsLookup j) with
    | .ok t => t
    | .error _ =>
      tierRetry proPrice agencyPrice haveCustomerId custLookup subsLookup n (j + 1)

/-- `get_user_tier(email, customer_id)` under the Stripe oracles. -/
def get_user_tier (proPrice agencyPrice : Option String) (haveCustomerId : Bool)
    (custLookup : Nat → Except String Bool)
    (subsLookup : Nat → Except String (List StripeSub)) : String :=
  tierRetry proPrice agencyPrice haveCustomerId custLookup subsLookup 3 0

/-! ## Consolidated scan logic (app.py lines 406-486)

The session state the scan logic touches is a record: the scan cache (a
dict keyed by the `f"{email}::{normalized_url}::{full_scan}"` string),
the current results, and the scan count.  The fetch and analyze calls
are oracles; the export buffers attached to the results dict are opaque
byte streams and omitted from the record. -/

instance {α β : Type} [DecidableEq α] [DecidableEq β] :
    DecidableEq (Except α β) := fun x y =>
  match x, y with
  | .error a, .error b =>
    if h : a = b then isTrue (by rw [h]) else isFalse (by simp [h])
  | .error _, .ok _ => isFalse (by simp)
  | .ok _, .error _ => isFalse (by simp)
  | .ok a, .ok b =>
    if h : a = b then isTrue (by rw [h]) else isFalse (by simp [h])

/-- A cached results dict: the analysis outcome (the error dict or the
merged report — the code stores either), plus the `html` and `url` keys
set before the error check. -/
structure ScanRecord where
  analysis : Except String Report
  html : List Char
  url : List Char
deriving DecidableEq

/-- `safe_normalize` (app.py lines 153-161): empty string for blank or
invalid input instead of raising. -/
def safe_normalize (u : List Char) : List Char :=
  if u = [] then []
  else
    match normalize_url u with
    | .ok v => v
    | .error _ => []

/-- Tiers whose users may request a full scan (app.py line 427). -/
def paidTier (tier : String) : Bool :=
  tier = "Pro" || tier = "Agency" || tier = "Enterprise"

/-- The cache key `f"{email}::{normalized_url}::{full_scan}"`. -/
def scanKey (email normalized : List Char) (full : Bool) : List Char :=
  email ++ [':', ':'] ++ normalized ++ [':', ':'] ++
    (if full then "True".toList else "False".toList)

/-- The mutable session state the consolidated scan logic reads and
writes. -/
structure ScanState where
  cache : List (List Char × ScanRecord)
  results : Option ScanRecord
  scanCount : Nat
deriving DecidableEq

/-- One run of the consolidated scan logic (app.py lines 406-486) for a
submitted URL: normalize (`st.stop()` on failure — state unchanged),
build the cache key, serve a hit from the cache, otherwise increment the
scan count and run fetch+analyze: on fetch failure the missing `"html"`
key raises a `KeyError` caught by the outer `except` (nothing cached); on
an analyze exception likewise; otherwise the results dict — the error
dict and the merged report alike — is stored in the cache under the key.
The returned flag records whether the expensive fetch+analyze compute was
entered. -/
def scanStep (st : ScanState) (email rawUrl : List Char) (tier : String)
    (fullScanFlag : Bool) (fetchR : FetchResult)
    (analyzeR : Except String (Except String Report)) : ScanState × Bool :=
  let normalized := safe_normalize (pyStrip rawUrl)
  if normalized = [] then (st, false)
  else
    let full := if paidTier tier then fullScanFlag else false
    let key := scanKey email normalized full
    match st.cache.lookup key with
    | some r => ({ st with results := some r }, false)
    | none =>
      let st1 : ScanState := { st with scanCount := st.scanCount + 1 }
      match fetchR with
      | .fetchFailed _ _ _ => (st1, true)
      | .fetched html =>
        match analyzeR with
        | .error _ => (st1, true)
        | .ok analysis =>
          let record : ScanRecord :=
            { analysis := analysis, html := html, url := normalized }
          ({ st1 with
              results := some record
              cache := (key, record) :: st1.cache }, true)

end Scanner

namespace Scanner

/-! ## Chunker lemmas and theorems -/

theorem tagDepth_append (a b : List Char) :
    tagDepth (a ++ b) = tagDepth a + tagDepth b := by
  simp [tagDepth]

theorem splitGo_join (csize : Nat) :
    ∀ (rest cur : List Char) (d : Int),
      (splitGo csize rest cur d).flatten = cur ++ rest := by
  intro rest
  induction rest with
  | nil =>
    intro cur d
    by_cases h : cur = [] <;> simp [splitGo, h]
  | cons ch rest ih =>
    intro cur d
    rw [splitGo]
    by_cases h : csize ≤ (cur ++ [ch]).length ∧ d + tagDelta ch = 0
    · rw [if_pos h]
      simp [ih]
    · rw [if_neg h]
      simp [ih]

theorem splitGo_boundaries (csize : Nat) :
    ∀ (rest cur : List Char) (d : Int) (k : Nat),
      k + 1 < (splitGo csize rest cur d).length →
      tagDepth (((splitGo csize rest cur d).take (k + 1)).flatten) =
        tagDepth cur - d := by
  intro rest
  induction rest with
  | nil =>
    intro cur d k hk
    by_cases h : cur = [] <;> simp [splitGo, h] at hk
  | cons ch rest ih =>
    intro cur d k hk
    rw [splitGo] at hk ⊢
    by_cases h : csize ≤ (cur ++ [ch]).length ∧ d + tagDelta ch = 0
    · rw [if_pos h] at hk ⊢
      obtain ⟨hlen, hd0⟩ := h
      match k with
      | 0 =>
        rw [List.take_succ_cons, List.take_zero, List.flatten_cons,
          List.flatten_nil, List.append_nil, tagDepth_append]
        simp only [tagDepth, List.map_cons, List.map_nil, List.sum_cons,
          List.sum_nil]
        omega
      | k + 1 =>
        simp only [List.length_cons] at hk
        have hk' : k + 1 < (splitGo csize rest [] (d + tagDelta ch)).length := by
          omega
        have hrec := ih [] (d + tagDelta ch) k hk'
        rw [List.take_succ_cons, List.flatten_cons, tagDepth_append, hrec,
          tagDepth_append]
        simp only [tagDepth, List.map_cons, List.map_nil, List.sum_cons,
          List.sum_nil]
        omega
    · rw [if_neg h] at hk ⊢
      have hrec := ih (cur ++ [ch]) (d + tagDelta ch) k hk
      rw [hrec, tagDepth_append]
      simp only [tagDepth, List.map_cons, List.map_nil, List.sum_cons,
        List.sum_nil]
      omega

end Scanner

/-- **C2.** For every HTML string and every chunk-size ceiling, the chunks
produced by `split_html_safely` concatenate back to exactly the original
string, and every boundary between two consecutive chunks occurs at a
position where the cumulative tag-depth counter equals 0. -/
theorem c2_chunker_safe (html : List Char) (csize : Nat) :
    (Scanner.split_html_safely html csize).flatten = html ∧
    ∀ k : Nat, k + 1 < (Scanner.split_html_safely html csize).length →
      Scanner.tagDepth (((Scanner.split_html_safely html csize).take (k + 1)).flatten) = 0 := by
  constructor
  · simpa using Scanner.splitGo_join csize html [] 0
  · intro k hk
    have := Scanner.splitGo_boundaries csize html [] 0 k hk
    simpa [Scanner.tagDepth] using this

/-- Witness for C2 at a concrete input: `"ab"` with ceiling 1 splits into
`["a", "b"]`, and the single internal boundary sits at tag-depth 0. -/
theorem c2_chunker_safe_witness :
    (Scanner.split_html_safely ['a', 'b'] 1).flatten = ['a', 'b'] ∧
    Scanner.tagDepth (((Scanner.split_html_safely ['a', 'b'] 1).take 1).flatten) = 0 := by
  refine ⟨(c2_chunker_safe ['a', 'b'] 1).1, ?_⟩
  exact (c2_chunker_safe ['a', 'b'] 1).2 0 (by decide)

namespace Scanner

/-! ## URL normalizer lemmas -/

theorem unsafe_imp_pyWS (c : Char) (h : isUnsafeByte c = true) : isPyWS c = true := by
  simp only [isUnsafeByte, Bool.or_eq_true, decide_eq_true_eq] at h
  rcases h with (h | h) | h <;> subst h <;> rfl

theorem pyWS_safe_netloc (c : Char) (h1 : isPyWS c = true) :
    notNetlocDelim c = true ∧ c ≠ '[' ∧ c ≠ ']' := by
  refine ⟨?_, ?_, ?_⟩
  · by_contra hno
    have h2 : ¬c = '/' → ¬c = '?' → c = '#' := by
      simpa [notNetlocDelim] using hno
    by_cases ha : c = '/'
    · subst ha; exact absurd h1 (by decide)
    by_cases hb : c = '?'
    · subst hb; exact absurd h1 (by decide)
    have := h2 ha hb
    subst this; exact absurd h1 (by decide)
  · intro heq; subst heq; exact absurd h1 (by decide)
  · intro heq; subst heq; exact absurd h1 (by decide)

theorem dropWhile_ne_nil_of_any (p q : Char → Bool) (l : List Char)
    (hpq : ∀ c, q c = true → p c = false) (h : l.any q = true) :
    l.dropWhile p ≠ [] := by
  induction l with
  | nil => simp at h
  | cons c l ih =>
    rw [List.dropWhile_cons]
    by_cases hc : p c = true
    · rw [if_pos hc]
      apply ih
      simp only [List.any_cons, Bool.or_eq_true] at h
      rcases h with h | h
      · rw [hpq c h] at hc; cases hc
      · exact h
    · rw [if_neg hc]
      simp

theorem rstrip_decomp (s : List Char) :
    s = rstripWS s ++ (s.reverse.takeWhile isPyWS).reverse ∧
      ∀ c ∈ (s.reverse.takeWhile isPyWS).reverse, isPyWS c = true := by
  constructor
  · conv_lhs => rw [← s.reverse_reverse]
    conv_lhs => rw [← List.takeWhile_append_dropWhile isPyWS s.reverse]
    rw [List.reverse_append]
    rfl
  · intro c hc
    rw [List.mem_reverse] at hc
    exact List.mem_takeWhile_imp hc

theorem any_nonWS_rstrip (s : List Char)
    (h : s.any (fun c => !isPyWS c) = true) :
    (rstripWS s).any (fun c => !isPyWS c) = true := by
  obtain ⟨hdec, hws⟩ := rstrip_decomp s
  rw [hdec, List.any_append] at h
  rcases Bool.or_eq_true_iff.mp h with h | h
  · exact h
  · exfalso
    obtain ⟨c, hc, hq⟩ := List.any_eq_true.mp h
    rw [hws c hc] at hq
    simp at hq

theorem rstripWS_append (a s : List Char)
    (h : s.any (fun c => !isPyWS c) = true) :
    rstripWS (a ++ s) = a ++ rstripWS s := by
  unfold rstripWS
  rw [List.reverse_append, List.dropWhile_append]
  have hne : s.reverse.dropWhile isPyWS ≠ [] := by
    apply dropWhile_ne_nil_of_any isPyWS (fun c => !isPyWS c)
    · intro c hc
      simpa using hc
    · simpa using h
  rw [if_neg (by simpa [List.isEmpty_iff] using hne)]
  rw [List.reverse_append, List.reverse_reverse]

theorem lstripWS_https (s : List Char) :
    lstripWS (httpsPrefix ++ s) = httpsPrefix ++ s := by
  have h : isPyWS 'h' = false := rfl
  simp [lstripWS, httpsPrefix, List.dropWhile_cons, h]

theorem pyStrip_https (s : List Char)
    (h : s.any (fun c => !isPyWS c) = true) :
    pyStrip (httpsPrefix ++ s) = httpsPrefix ++ rstripWS s := by
  rw [pyStrip, lstripWS_https, rstripWS_append _ _ h]

theorem cleanUrl_https (x : List Char) :
    cleanUrl (httpsPrefix ++ x) = httpsPrefix ++ cleanFilter x := by
  have h : isC0OrSpace 'h' = false := rfl
  unfold cleanUrl
  rw [show httpsPrefix ++ x = 'h' :: (['t', 't', 'p', 's', ':', '/', '/'] ++ x) from rfl]
  rw [List.dropWhile_cons, if_neg (by simp [h])]
  show cleanFilter (httpsPrefix ++ x) = httpsPrefix ++ cleanFilter x
  unfold cleanFilter
  rw [List.filter_append]
  rfl

theorem schemeLoop_https (x : List Char) :
    schemeLoop (httpsPrefix ++ x) =
      some (['h', 't', 't', 'p', 's'], '/' :: '/' :: x) := by
  simp [httpsPrefix, schemeLoop]

theorem splitScheme_https (x : List Char) :
    splitScheme (httpsPrefix ++ x) =
      (some ['h', 't', 't', 'p', 's'], '/' :: '/' :: x) := rfl

theorem parseSN_https (x : List Char) :
    parseSN (httpsPrefix ++ x) =
      (if bracketMismatch ((cleanFilter x).takeWhile notNetlocDelim)
        then Except.error "Invalid IPv6 URL"
        else Except.ok (some ['h', 't', 't', 'p', 's'],
          (cleanFilter x).takeWhile notNetlocDelim)) := by
  rw [parseSN, cleanUrl_https, splitScheme_https]
  rfl

theorem cleanFilter_ne_nil (l : List Char)
    (h : l.any (fun c => !isPyWS c) = true) : cleanFilter l ≠ [] := by
  obtain ⟨c, hc, hq⟩ := List.any_eq_true.mp h
  have hws : isPyWS c = false := by simpa using hq
  have hsafe : isUnsafeByte c = false := by
    cases hu : isUnsafeByte c
    · rfl
    · rw [unsafe_imp_pyWS c hu] at hws; cases hws
  apply List.ne_nil_of_mem (a := c)
  rw [cleanFilter, List.mem_filter]
  exact ⟨hc, by simp [hsafe]⟩

/-- Transfer of the netloc observations from `https:// + s` to
`https:// + rstrip(s)`: the trailing-whitespace part of `s` contributes
only whitespace characters to the netloc, which are not netloc
delimiters and not brackets. -/
theorem netloc_rstrip_transfer (s : List Char)
    (hs : s.any (fun c => !isPyWS c) = true) :
    ((cleanFilter (rstripWS s)).takeWhile notNetlocDelim ≠ [] ∧
      ((cleanFilter s).takeWhile notNetlocDelim).any (fun c => c = '[') =
        ((cleanFilter (rstripWS s)).takeWhile notNetlocDelim).any (fun c => c = '[') ∧
      ((cleanFilter s).takeWhile notNetlocDelim).any (fun c => c = ']') =
        ((cleanFilter (rstripWS s)).takeWhile notNetlocDelim).any (fun c => c = ']')) ∨
    (cleanFilter s).takeWhile notNetlocDelim =
      (cleanFilter (rstripWS s)).takeWhile notNetlocDelim := by
  obtain ⟨hdec, hws⟩ := rstrip_decomp s
  set w := (s.reverse.takeWhile isPyWS).reverse with hw
  have hsplit : cleanFilter s = cleanFilter (rstripWS s) ++ cleanFilter w := by
    conv_lhs => rw [hdec]
    rw [cleanFilter, List.filter_append]
    rfl
  have hB : ∀ c ∈ cleanFilter w, notNetlocDelim c = true ∧ c ≠ '[' ∧ c ≠ ']' := by
    intro c hc
    rw [cleanFilter, List.mem_filter] at hc
    obtain ⟨hcw, hcf⟩ := hc
    exact pyWS_safe_netloc c (hws c hcw)
  rw [hsplit, List.takeWhile_append]
  by_cases hlen : ((cleanFilter (rstripWS s)).takeWhile notNetlocDelim).length =
      (cleanFilter (rstripWS s)).length
  · rw [if_pos hlen]
    left
    have hA : (cleanFilter (rstripWS s)).takeWhile notNetlocDelim =
        cleanFilter (rstripWS s) :=
      (List.takeWhile_prefix _).eq_of_length hlen
    have hAne : cleanFilter (rstripWS s) ≠ [] :=
      cleanFilter_ne_nil _ (any_nonWS_rstrip s hs)
    have hBtake : ∀ c ∈ (cleanFilter w).takeWhile notNetlocDelim,
        c ≠ '[' ∧ c ≠ ']' := by
      intro c hc
      have hcw : c ∈ cleanFilter w := (List.takeWhile_prefix _).subset hc
      exact (hB c hcw).2
    refine ⟨by rw [hA]; exact hAne, ?_, ?_⟩ <;>
    · rw [List.any_append, hA]
      have hfalse : ((cleanFilter w).takeWhile notNetlocDelim).any
          (fun c => decide (c = '[')) = false ∧
          ((cleanFilter w).takeWhile notNetlocDelim).any
            (fun c => decide (c = ']')) = false := by
        constructor <;>
        · rw [List.any_eq_false]
          intro c hc
          simp only [decide_eq_true_eq]
          first
            | exact (hBtake c hc).1
            | exact (hBtake c hc).2
      first
        | rw [hfalse.1, Bool.or_false]
        | rw [hfalse.2, Bool.or_false]
  · rw [if_neg hlen]
    right
    rfl

end Scanner

/-- **C6 counterexample.** Normalization is not idempotent on the code: on
the single-space input the first application succeeds with `"https:// "`
(the space becomes the parsed host), while applying normalization to that
result raises `ValueError("Invalid URL: No domain specified")`. -/
theorem c6_counterexample :
    Scanner.normalize_url [' '] = .ok ("https:// ".toList) ∧
    Scanner.normalize_url ("https:// ".toList) =
      .error "Invalid URL: No domain specified" := ⟨rfl, rfl⟩

/-- **C6 (amended).** URL normalization is idempotent on every input string
that contains at least one non-whitespace character: whenever the first
application succeeds, applying `normalize_url` to its result succeeds and
returns the same string.  (Whitespace-only inputs are excluded: they are
the only inputs where a successful first application — e.g. on `" "` —
is followed by a failing second application.) -/
theorem c6_amended (s v : List Char)
    (hs : s.any (fun c => !Scanner.isPyWS c) = true)
    (h : Scanner.normalize_url s = .ok v) :
    Scanner.normalize_url v = .ok v := by
  unfold Scanner.normalize_url at h
  split at h
  · exact Except.noConfusion h
  · rename_i sch netloc heq
    split at h
    · exact Except.noConfusion h
    · rename_i hne
      injection h with hv
      subst hv
      unfold Scanner.normalize_url
      rw [heq]
      simp only []
      rw [if_neg hne]
  · rename_i netloc0 heq
    split at h
    · exact Except.noConfusion h
    · rename_i p netloc2 heq2
      split at h
      · exact Except.noConfusion h
      · rename_i hne2
        injection h with hv
        subst hv
        rw [Scanner.parseSN_https s] at heq2
        by_cases hbm : Scanner.bracketMismatch
            ((Scanner.cleanFilter s).takeWhile Scanner.notNetlocDelim) = true
        · rw [if_pos hbm] at heq2; exact Except.noConfusion heq2
        · rw [if_neg hbm] at heq2
          injection heq2 with hpair
          have hN2 : netloc2 =
              (Scanner.cleanFilter s).takeWhile Scanner.notNetlocDelim :=
            (congrArg Prod.snd hpair).symm
          subst hN2
          have hbmf : Scanner.bracketMismatch
              ((Scanner.cleanFilter s).takeWhile Scanner.notNetlocDelim) = false :=
            Bool.not_eq_true _ ▸ Bool.of_not_eq_true hbm
          unfold Scanner.normalize_url
          rw [Scanner.pyStrip_https s hs, Scanner.parseSN_https]
          rcases Scanner.netloc_rstrip_transfer s hs with ⟨hne', hbr1, hbr2⟩ | heqN
          · have hbm' : Scanner.bracketMismatch
                ((Scanner.cleanFilter (Scanner.rstripWS s)).takeWhile
                  Scanner.notNetlocDelim) = false := by
              unfold Scanner.bracketMismatch at hbmf ⊢
              rw [← hbr1, ← hbr2]
              exact hbmf
            rw [if_neg (by rw [hbm']; exact Bool.false_ne_true)]
            simp only []
            rw [if_neg hne']
          · have hbm' : Scanner.bracketMismatch
                ((Scanner.cleanFilter (Scanner.rstripWS s)).takeWhile
                  Scanner.notNetlocDelim) = false := heqN ▸ hbmf
            rw [if_neg (by rw [hbm']; exact Bool.false_ne_true)]
            simp only []
            rw [if_neg (heqN ▸ hne2)]

/-- Witness for C6 (amended) at a concrete input: `"nasa.gov"` contains a
non-whitespace character, normalizes to `"https://nasa.gov"`, and
normalizing the result returns it unchanged. -/
theorem c6_amended_witness :
    ("nasa.gov".toList).any (fun c => !Scanner.isPyWS c) = true ∧
    Scanner.normalize_url ("https://nasa.gov".toList) =
      .ok ("https://nasa.gov".toList) :=
  ⟨by decide, c6_amended ("nasa.gov".toList) ("https://nasa.gov".toList)
    (by decide) rfl⟩

/-- **C7 counterexample.** A whitespace-only string does not fail: the
single-space input normalizes successfully to `"https:// "` (after scheme
insertion the space itself is parsed as the host component), contradicting
the claim that whitespace-only inputs are rejected with `InvalidUrl`. -/
theorem c7_counterexample :
    Scanner.normalize_url [' '] = .ok ("https:// ".toList) := rfl

/-- **C7 (amended).** For every input string in which no host component is
present in the parse the code consults — when the stripped input has no
scheme and, after insertion of `https://`, the parsed netloc is empty, or
when the stripped input has a scheme but an empty netloc — normalization
fails with `ValueError("Invalid URL: No domain specified")`; in particular
the empty string and a scheme-without-authority string (`"https://"`)
fail.  (Whitespace-only strings are not in this class in general: a space
becomes the parsed host after scheme insertion.) -/
theorem c7_amended :
    (∀ (s n : List Char) (p : Option (List Char)),
        Scanner.parseSN (Scanner.pyStrip s) = .ok (none, n) →
        Scanner.parseSN (Scanner.httpsPrefix ++ s) = .ok (p, []) →
        Scanner.normalize_url s = .error "Invalid URL: No domain specified") ∧
    (∀ (s sch : List Char),
        Scanner.parseSN (Scanner.pyStrip s) = .ok (some sch, []) →
        Scanner.normalize_url s = .error "Invalid URL: No domain specified") ∧
    Scanner.normalize_url [] = .error "Invalid URL: No domain specified" ∧
    Scanner.normalize_url ("https://".toList) =
      .error "Invalid URL: No domain specified" := by
  refine ⟨?_, ?_, rfl, rfl⟩
  · intro s n p h1 h2
    unfold Scanner.normalize_url
    rw [h1]
    simp only []
    rw [h2]
    rfl
  · intro s sch h
    unfold Scanner.normalize_url
    rw [h]
    rfl

/-- Witness for C7 (amended): the input `"/p"` has no scheme after
stripping and an empty netloc after scheme insertion, and normalization
rejects it. -/
theorem c7_amended_witness :
    Scanner.normalize_url ['/', 'p'] = .error "Invalid URL: No domain specified" :=
  c7_amended.1 ['/', 'p'] [] (some ['h', 't', 't', 'p', 's']) rfl rfl

namespace Scanner

/-! ## Analyzer lemmas -/

theorem mergeResults_cons (r0 : PartialResult) (rest : List PartialResult)
    (missingAlt : Nat) :
    mergeResults (r0 :: rest) missingAlt =
      some
        { issues := (((if 0 < missingAlt
              then { r0 with issues := r0.issues ++ [staticAltIssue missingAlt] }
              else r0) :: rest).map (fun r => r.issues.map fillCategory)).flatten
          score := (((if 0 < missingAlt
              then { r0 with issues := r0.issues ++ [staticAltIssue missingAlt] }
              else r0) :: rest).map
                (fun r => (r.score : Rat) / ((rest.length + 1 : Nat) : Rat))).sum
          disclaimer := r0.disclaimer
          summary := String.join (((if 0 < missingAlt
              then { r0 with issues := r0.issues ++ [staticAltIssue missingAlt] }
              else r0) :: rest).map (fun r => r.summary ++ "\n")) } := by
  rw [mergeResults]
  simp only [List.length_cons]

theorem analyzeGo_fail (oracle : Nat → List Char → Except String PartialResult)
    (m : Nat) :
    ∀ (cs : List (List Char)) (k : Nat) (acc : List PartialResult)
      (i : Nat) (e : String),
      i < cs.length →
      (∀ j, j < i → (oracle (k + j) (cs.getD j [])).isOk = true) →
      oracle (k + i) (cs.getD i []) = .error e →
      analyzeGo oracle m cs k acc =
        (k + i + 1, .ok (.error ("AI response failed: " ++ e))) := by
  intro cs
  induction cs with
  | nil =>
    intro k acc i e hi _ _
    simp at hi
  | cons c cs ih =>
    intro k acc i e hi hpre hfail
    match i with
    | 0 =>
      rw [analyzeGo]
      simp only [List.getD_cons_zero, Nat.add_zero] at hfail
      rw [hfail]
    | i + 1 =>
      have h0 : (oracle (k + 0) ((c :: cs).getD 0 [])).isOk = true :=
        hpre 0 (Nat.succ_pos i)
      simp only [List.getD_cons_zero, Nat.add_zero] at h0
      rw [analyzeGo]
      cases hc : oracle k c with
      | error e' =>
        rw [hc] at h0
        simp [Except.isOk, Except.toBool] at h0
      | ok p =>
        show analyzeGo oracle m cs (k + 1) (p :: acc) =
          (k + (i + 1) + 1, .ok (.error ("AI response failed: " ++ e)))
        have hi' : i < cs.length := by
          simpa [Nat.succ_lt_succ_iff] using hi
        have hpre' : ∀ j, j < i → (oracle (k + 1 + j) (cs.getD j [])).isOk = true := by
          intro j hj
          have := hpre (j + 1) (by omega)
          simpa [Nat.add_assoc, Nat.add_comm 1 j] using this
        have hfail' : oracle (k + 1 + i) (cs.getD i []) = .error e := by
          have := hfail
          simpa [Nat.add_assoc, Nat.add_comm 1 i] using this
        have hrec := ih (k + 1) (p :: acc) i e hi' hpre' hfail'
        rw [hrec]
        congr 1
        omega

theorem analyzeRetry_ok (oracle : Nat → List Char → Except String PartialResult)
    (m : Nat) (chunks : List (List Char)) (n k k' : Nat)
    (r : Except String Report)
    (h : analyzeGo oracle m chunks k [] = (k', .ok r)) :
    analyzeRetry oracle m chunks (n + 1) k = (k', .ok r) := by
  rw [analyzeRetry, h]

end Scanner

/-- **C3.** For every non-empty sequence of successful per-chunk partial
results and every missing-alt count, the merged report exists and its
issue list has length equal to the sum of the partials' issue-list
lengths, plus one exactly when the full original HTML contains at least
one `<img>` element without alt text (i.e. the BeautifulSoup count is
positive); no partial's issues are dropped. -/
theorem c3_merge_completeness (r0 : Scanner.PartialResult)
    (rest : List Scanner.PartialResult) (missingAlt : Nat) :
    (Scanner.mergeResults (r0 :: rest) missingAlt).map (fun rep => rep.issues.length) =
      some (((r0 :: rest).map (fun r => r.issues.length)).sum +
        (if 0 < missingAlt then 1 else 0)) := by
  rw [Scanner.mergeResults_cons, Option.map_some']
  congr 1
  rw [List.length_flatten, List.map_map]
  by_cases h : 0 < missingAlt
  · rw [if_pos h, if_pos h]
    simp [Function.comp_def]
    omega
  · rw [if_neg h, if_neg h]
    simp [Function.comp_def]

namespace Scanner

/-! ### Rounding lemmas for the binary64 model -/

theorem repr_grid_coarse (m' e e' : Int) (he : e ≤ e') :
    (m' : Rat) * (2:Rat) ^ e' =
      ((m' * 2 ^ (e' - e).toNat : Int) : Rat) * (2:Rat) ^ e := by
  have h1 : (2:Rat) ^ e' = (2:Rat) ^ (((e' - e).toNat : Int)) * (2:Rat) ^ e := by
    rw [← zpow_add₀ (by norm_num : (2:Rat) ≠ 0)]
    congr 1
    omega
  rw [h1, zpow_natCast]
  push_cast
  ring

theorem repr_grid_fine (m' e e' : Int) (hm' : |m'| ≤ 2 ^ 53) (he : e' < e) :
    |(m' : Rat) * (2:Rat) ^ e'| ≤ (2:Rat) ^ (e + 52) := by
  rw [abs_mul, abs_of_pos (zpow_pos (by norm_num : (0:Rat) < 2) e')]
  have h1 : |(m' : Rat)| ≤ (2:Rat) ^ (53 : Int) := by
    have h2 : ((|m'| : Int) : Rat) ≤ ((2 ^ 53 : Int) : Rat) := by exact_mod_cast hm'
    rw [Int.cast_abs] at h2
    calc |(m' : Rat)| ≤ ((2 ^ 53 : Int) : Rat) := h2
      _ = (2:Rat) ^ (53 : Int) := by norm_num
  have h2 : (2:Rat) ^ e' ≤ (2:Rat) ^ (e - 1) :=
    zpow_le_zpow_right₀ (by norm_num) (by omega)
  have h3 : (0:Rat) ≤ (2:Rat) ^ e' :=
    le_of_lt (zpow_pos (by norm_num : (0:Rat) < 2) e')
  calc |(m' : Rat)| * (2:Rat) ^ e'
      ≤ (2:Rat) ^ (53 : Int) * (2:Rat) ^ (e - 1) :=
        mul_le_mul h1 h2 h3 (by positivity)
    _ = (2:Rat) ^ (e + 52) := by
        rw [← zpow_add₀ (by norm_num : (2:Rat) ≠ 0)]
        congr 1
        omega

/-- On the inputs exercised here — strictly within half an ulp of a
normalised grid point and large enough that finer-grained representables
are out of reach — round-to-nearest has exactly one possible result,
whatever the tie rule. -/
theorem roundsTo_grid (x : Rat) (m e : Int)
    (hm : |m| ≤ 2 ^ 53)
    (hnear : |x - (m : Rat) * (2:Rat) ^ e| < (2:Rat) ^ e / 2)
    (hbig : (2:Rat) ^ (e + 52) + (2:Rat) ^ e / 2 < |x|) :
    ∀ fx, RoundsTo x fx ↔ fx = (m : Rat) * (2:Rat) ^ e := by
  have hpos : (0:Rat) < (2:Rat) ^ e := zpow_pos (by norm_num) e
  intro fx
  constructor
  · rintro ⟨⟨m', e', rfl, hm'⟩, hnearest⟩
    have hdist : |x - (m' : Rat) * (2:Rat) ^ e'| ≤
        |x - (m : Rat) * (2:Rat) ^ e| :=
      hnearest _ ⟨m, e, rfl, hm⟩
    by_cases he : e ≤ e'
    · obtain ⟨k, hky⟩ : ∃ k : Int,
          (m' : Rat) * (2:Rat) ^ e' = (k : Rat) * (2:Rat) ^ e :=
        ⟨m' * 2 ^ (e' - e).toNat, repr_grid_coarse m' e e' he⟩
      rw [hky] at hdist ⊢
      have htri : |(k : Rat) * (2:Rat) ^ e - (m : Rat) * (2:Rat) ^ e| <
          (2:Rat) ^ e := by
        calc |(k : Rat) * (2:Rat) ^ e - (m : Rat) * (2:Rat) ^ e|
            ≤ |(k : Rat) * (2:Rat) ^ e - x| + |x - (m : Rat) * (2:Rat) ^ e| :=
              abs_sub_le _ x _
          _ = |x - (k : Rat) * (2:Rat) ^ e| + |x - (m : Rat) * (2:Rat) ^ e| := by
              rw [abs_sub_comm]
          _ < (2:Rat) ^ e := by linarith
      have hker : ((k - m : Int) : Rat) * (2:Rat) ^ e =
          (k : Rat) * (2:Rat) ^ e - (m : Rat) * (2:Rat) ^ e := by
        push_cast
        ring
      rw [← hker, abs_mul, abs_of_pos hpos] at htri
      have hlt1 : |((k - m : Int) : Rat)| < 1 := by
        by_contra hge
        push_neg at hge
        have := mul_le_mul_of_nonneg_right hge (le_of_lt hpos)
        linarith
      rw [← Int.cast_abs] at hlt1
      have hkm : k = m := by
        have h2 : |k - m| < 1 := by exact_mod_cast hlt1
        obtain ⟨h3, h4⟩ := abs_lt.mp h2
        omega
      rw [hkm]
    · push_neg at he
      exfalso
      have hb := repr_grid_fine m' e e' hm' he
      have hfar : |x| - (2:Rat) ^ (e + 52) ≤
          |x - (m' : Rat) * (2:Rat) ^ e'| := by
        calc |x| - (2:Rat) ^ (e + 52)
            ≤ |x| - |(m' : Rat) * (2:Rat) ^ e'| := by linarith
          _ ≤ |x - (m' : Rat) * (2:Rat) ^ e'| := abs_sub_abs_le_abs_sub x _
      linarith
  · rintro rfl
    refine ⟨⟨m, e, rfl, hm⟩, ?_⟩
    rintro y ⟨m', e', rfl, hm'⟩
    by_cases he : e ≤ e'
    · obtain ⟨k, hky⟩ : ∃ k : Int,
          (m' : Rat) * (2:Rat) ^ e' = (k : Rat) * (2:Rat) ^ e :=
        ⟨m' * 2 ^ (e' - e).toNat, repr_grid_coarse m' e e' he⟩
      rw [hky]
      by_cases hkm : k = m
      · rw [hkm]
      · have hker : ((k - m : Int) : Rat) * (2:Rat) ^ e =
            (k : Rat) * (2:Rat) ^ e - (m : Rat) * (2:Rat) ^ e := by
          push_cast
          ring
        have h1 : (1:Rat) ≤ |((k - m : Int) : Rat)| := by
          rw [← Int.cast_abs]
          have h2 : (1:Int) ≤ |k - m| := Int.one_le_abs (sub_ne_zero.mpr hkm)
          exact_mod_cast h2
        have hsep : (2:Rat) ^ e ≤
            |(k : Rat) * (2:Rat) ^ e - (m : Rat) * (2:Rat) ^ e| := by
          rw [← hker, abs_mul, abs_of_pos hpos]
          calc (2:Rat) ^ e = 1 * (2:Rat) ^ e := (one_mul _).symm
            _ ≤ |((k - m : Int) : Rat)| * (2:Rat) ^ e :=
              mul_le_mul_of_nonneg_right h1 (le_of_lt hpos)
        have htri : |(k : Rat) * (2:Rat) ^ e - (m : Rat) * (2:Rat) ^ e| ≤
            |x - (k : Rat) * (2:Rat) ^ e| + |x - (m : Rat) * (2:Rat) ^ e| := by
          calc |(k : Rat) * (2:Rat) ^ e - (m : Rat) * (2:Rat) ^ e|
              ≤ |(k : Rat) * (2:Rat) ^ e - x| + |x - (m : Rat) * (2:Rat) ^ e| :=
                abs_sub_le _ x _
            _ = |x - (k : Rat) * (2:Rat) ^ e| + |x - (m : Rat) * (2:Rat) ^ e| := by
                rw [abs_sub_comm]
        linarith
    · push_neg at he
      have hb := repr_grid_fine m' e e' hm' he
      have hfar : |x| - (2:Rat) ^ (e + 52) ≤
          |x - (m' : Rat) * (2:Rat) ^ e'| := by
        calc |x| - (2:Rat) ^ (e + 52)
            ≤ |x| - |(m' : Rat) * (2:Rat) ^ e'| := by linarith
          _ ≤ |x - (m' : Rat) * (2:Rat) ^ e'| := abs_sub_abs_le_abs_sub x _
      linarith

/-! ### The individual roundings of the accumulation `0 + 100/7 * 7`
(division once per loop iteration), each pinned by `roundsTo_grid`;
the mantissa/exponent values come from the exact computation of the
chain. -/

theorem c4_round_div (fx : Rat) :
    RoundsTo (((100 : Int) : Rat) / 7) fx ↔
      fx = 8042142191733029 * (2:Rat) ^ (-49 : Int) := by
  constructor
  · intro hr
    have h := (roundsTo_grid (((100 : Int) : Rat) / 7) 8042142191733029 (-49)
      (by norm_num)
      (by rw [abs_sub_lt_iff]; constructor <;> norm_num)
      (by rw [abs_of_pos (by norm_num)]; norm_num) fx).mp hr
    exact_mod_cast h
  · intro hfx
    apply (roundsTo_grid (((100 : Int) : Rat) / 7) 8042142191733029 (-49)
      (by norm_num)
      (by rw [abs_sub_lt_iff]; constructor <;> norm_num)
      (by rw [abs_of_pos (by norm_num)]; norm_num) fx).mpr
    exact_mod_cast hfx

theorem c4_round_a1 (fx : Rat) :
    RoundsTo ((0:Rat) + 8042142191733029 * (2:Rat) ^ (-49 : Int)) fx ↔
      fx = 8042142191733029 * (2:Rat) ^ (-49 : Int) := by
  constructor
  · intro hr
    have h := (roundsTo_grid _ 8042142191733029 (-49)
      (by norm_num)
      (by rw [abs_sub_lt_iff]; constructor <;> norm_num)
      (by rw [abs_of_pos (by norm_num)]; norm_num) fx).mp hr
    exact_mod_cast h
  · intro hfx
    apply (roundsTo_grid _ 8042142191733029 (-49)
      (by norm_num)
      (by rw [abs_sub_lt_iff]; constructor <;> norm_num)
      (by rw [abs_of_pos (by norm_num)]; norm_num) fx).mpr
    exact_mod_cast hfx

theorem c4_round_a2 (fx : Rat) :
    RoundsTo (8042142191733029 * (2:Rat) ^ (-49 : Int) +
      8042142191733029 * (2:Rat) ^ (-49 : Int)) fx ↔
      fx = 8042142191733029 * (2:Rat) ^ (-48 : Int) := by
  constructor
  · intro hr
    have h := (roundsTo_grid _ 8042142191733029 (-48)
      (by norm_num)
      (by rw [abs_sub_lt_iff]; constructor <;> norm_num)
      (by rw [abs_of_pos (by norm_num)]; norm_num) fx).mp hr
    exact_mod_cast h
  · intro hfx
    apply (roundsTo_grid _ 8042142191733029 (-48)
      (by norm_num)
      (by rw [abs_sub_lt_iff]; constructor <;> norm_num)
      (by rw [abs_of_pos (by norm_num)]; norm_num) fx).mpr
    exact_mod_cast hfx

theorem c4_round_a3 (fx : Rat) :
    RoundsTo (8042142191733029 * (2:Rat) ^ (-48 : Int) +
      8042142191733029 * (2:Rat) ^ (-49 : Int)) fx ↔
      fx = 6031606643799772 * (2:Rat) ^ (-47 : Int) := by
  constructor
  · intro hr
    have h := (roundsTo_grid _ 6031606643799772 (-47)
      (by norm_num)
      (by rw [abs_sub_lt_iff]; constructor <;> norm_num)
      (by rw [abs_of_pos (by norm_num)]; norm_num) fx).mp hr
    exact_mod_cast h
  · intro hfx
    apply (roundsTo_grid _ 6031606643799772 (-47)
      (by norm_num)
      (by rw [abs_sub_lt_iff]; constructor <;> norm_num)
      (by rw [abs_of_pos (by norm_num)]; norm_num) fx).mpr
    exact_mod_cast hfx

theorem c4_round_a4 (fx : Rat) :
    RoundsTo (6031606643799772 * (2:Rat) ^ (-47 : Int) +
      8042142191733029 * (2:Rat) ^ (-49 : Int)) fx ↔
      fx = 8042142191733029 * (2:Rat) ^ (-47 : Int) := by
  constructor
  · intro hr
    have h := (roundsTo_grid _ 8042142191733029 (-47)
      (by norm_num)
      (by rw [abs_sub_lt_iff]; constructor <;> norm_num)
      (by rw [abs_of_pos (by norm_num)]; norm_num) fx).mp hr
    exact_mod_cast h
  · intro hfx
    apply (roundsTo_grid _ 8042142191733029 (-47)
      (by norm_num)
      (by rw [abs_sub_lt_iff]; constructor <;> norm_num)
      (by rw [abs_of_pos (by norm_num)]; norm_num) fx).mpr
    exact_mod_cast hfx

theorem c4_round_a5 (fx : Rat) :
    RoundsTo (8042142191733029 * (2:Rat) ^ (-47 : Int) +
      8042142191733029 * (2:Rat) ^ (-49 : Int)) fx ↔
      fx = 5026338869833143 * (2:Rat) ^ (-46 : Int) := by
  constructor
  · intro hr
    have h := (roundsTo_grid _ 5026338869833143 (-46)
      (by norm_num)
      (by rw [abs_sub_lt_iff]; constructor <;> norm_num)
      (by rw [abs_of_pos (by norm_num)]; norm_num) fx).mp hr
    exact_mod_cast h
  · intro hfx
    apply (roundsTo_grid _ 5026338869833143 (-46)
      (by norm_num)
      (by rw [abs_sub_lt_iff]; constructor <;> norm_num)
      (by rw [abs_of_pos (by norm_num)]; norm_num) fx).mpr
    exact_mod_cast hfx

theorem c4_round_a6 (fx : Rat) :
    RoundsTo (5026338869833143 * (2:Rat) ^ (-46 : Int) +
      8042142191733029 * (2:Rat) ^ (-49 : Int)) fx ↔
      fx = 6031606643799772 * (2:Rat) ^ (-46 : Int) := by
  constructor
  · intro hr
    have h := (roundsTo_grid _ 6031606643799772 (-46)
      (by norm_num)
      (by rw [abs_sub_lt_iff]; constructor <;> norm_num)
      (by rw [abs_of_pos (by norm_num)]; norm_num) fx).mp hr
    exact_mod_cast h
  · intro hfx
    apply (roundsTo_grid _ 6031606643799772 (-46)
      (by norm_num)
      (by rw [abs_sub_lt_iff]; constructor <;> norm_num)
      (by rw [abs_of_pos (by norm_num)]; norm_num) fx).mpr
    exact_mod_cast hfx

theorem c4_round_a7 (fx : Rat) :
    RoundsTo (6031606643799772 * (2:Rat) ^ (-46 : Int) +
      8042142191733029 * (2:Rat) ^ (-49 : Int)) fx ↔
      fx = 7036874417766401 * (2:Rat) ^ (-46 : Int) := by
  constructor
  · intro hr
    have h := (roundsTo_grid _ 7036874417766401 (-46)
      (by norm_num)
      (by rw [abs_sub_lt_iff]; constructor <;> norm_num)
      (by rw [abs_of_pos (by norm_num)]; norm_num) fx).mp hr
    exact_mod_cast h
  · intro hfx
    apply (roundsTo_grid _ 7036874417766401 (-46)
      (by norm_num)
      (by rw [abs_sub_lt_iff]; constructor <;> norm_num)
      (by rw [abs_of_pos (by norm_num)]; norm_num) fx).mpr
    exact_mod_cast hfx

theorem c4_round200_div (fx : Rat) :
    RoundsTo (((200 : Int) : Rat) / 1) fx ↔
      fx = 7036874417766400 * (2:Rat) ^ (-45 : Int) := by
  constructor
  · intro hr
    have h := (roundsTo_grid (((200 : Int) : Rat) / 1) 7036874417766400 (-45)
      (by norm_num)
      (by rw [abs_sub_lt_iff]; constructor <;> norm_num)
      (by rw [abs_of_pos (by norm_num)]; norm_num) fx).mp hr
    exact_mod_cast h
  · intro hfx
    apply (roundsTo_grid (((200 : Int) : Rat) / 1) 7036874417766400 (-45)
      (by norm_num)
      (by rw [abs_sub_lt_iff]; constructor <;> norm_num)
      (by rw [abs_of_pos (by norm_num)]; norm_num) fx).mpr
    exact_mod_cast hfx

theorem c4_round200_a (fx : Rat) :
    RoundsTo ((0:Rat) + 7036874417766400 * (2:Rat) ^ (-45 : Int)) fx ↔
      fx = 7036874417766400 * (2:Rat) ^ (-45 : Int) := by
  constructor
  · intro hr
    have h := (roundsTo_grid _ 7036874417766400 (-45)
      (by norm_num)
      (by rw [abs_sub_lt_iff]; constructor <;> norm_num)
      (by rw [abs_of_pos (by norm_num)]; norm_num) fx).mp hr
    exact_mod_cast h
  · intro hfx
    apply (roundsTo_grid _ 7036874417766400 (-45)
      (by norm_num)
      (by rw [abs_sub_lt_iff]; constructor <;> norm_num)
      (by rw [abs_of_pos (by norm_num)]; norm_num) fx).mpr
    exact_mod_cast hfx

/-- The floating-point accumulation of seven scores of 100 at seven
chunks: every rounding in the chain is strictly nearest, so the result
is forced to `0x1.9000000000001p+6 = 100 + 2⁻⁴⁶`. -/
theorem flMergeScore_seven (out : Rat)
    (h : FlMergeScore 7 (List.replicate 7 (100 : Int)) 0 out) :
    out = 7036874417766401 * (2:Rat) ^ (-46 : Int) := by
  have h7 : FlMergeScore 7
      [100, 100, 100, 100, 100, 100, 100] 0 out := h
  cases h7
  rename_i d1 a1 hd1 ha1 h6
  obtain rfl := (c4_round_div d1).mp hd1
  obtain rfl := (c4_round_a1 a1).mp ha1
  cases h6
  rename_i d2 a2 hd2 ha2 h5
  obtain rfl := (c4_round_div d2).mp hd2
  obtain rfl := (c4_round_a2 a2).mp ha2
  cases h5
  rename_i d3 a3 hd3 ha3 h4
  obtain rfl := (c4_round_div d3).mp hd3
  obtain rfl := (c4_round_a3 a3).mp ha3
  cases h4
  rename_i d4 a4 hd4 ha4 h3
  obtain rfl := (c4_round_div d4).mp hd4
  obtain rfl := (c4_round_a4 a4).mp ha4
  cases h3
  rename_i d5 a5 hd5 ha5 h2
  obtain rfl := (c4_round_div d5).mp hd5
  obtain rfl := (c4_round_a5 a5).mp ha5
  cases h2
  rename_i d6 a6 hd6 ha6 h1
  obtain rfl := (c4_round_div d6).mp hd6
  obtain rfl := (c4_round_a6 a6).mp ha6
  cases h1
  rename_i d7 a7 hd7 ha7 h0
  obtain rfl := (c4_round_div d7).mp hd7
  obtain rfl := (c4_round_a7 a7).mp ha7
  cases h0
  rfl

end Scanner

/-- **C4 counterexample.** The merged score is not always in `[0, 100]`
for all values the extractor may return: a single partial result with
(unclamped) score 200 yields a merged report whose score is 200 — in the
exact-arithmetic reading of the merge and equally in the floating-point
reading (200/1 and 0 + 200 are exact in binary64). -/
theorem c4_counterexample :
    (Scanner.mergeResults [Scanner.c4Partial] 0).map Scanner.Report.score =
      some 200 ∧
    Scanner.FlMergeScore 1 [200] 0 200 ∧
    ¬ (200 : Rat) ≤ 100 := by
  refine ⟨?_, ?_, by norm_num⟩
  · rw [Scanner.mergeResults_cons, Option.map_some']
    congr 1
    simp [Scanner.c4Partial]
  · have h200 : (7036874417766400 : Rat) * (2:Rat) ^ (-45 : Int) = 200 := by
      norm_num
    have hchain : Scanner.FlMergeScore 1 [200] 0
        (7036874417766400 * (2:Rat) ^ (-45 : Int)) := by
      refine Scanner.FlMergeScore.cons 200 [] 0 _ _ _
        ((Scanner.c4_round200_div _).mpr rfl)
        ((Scanner.c4_round200_a _).mpr rfl)
        (Scanner.FlMergeScore.nil _)
    rw [h200] at hchain
    exact hchain

/-- **C4 (amended).** In exact arithmetic the merged score is the
equally-weighted arithmetic mean of the per-chunk scores (first
conjunct, on the exact-arithmetic model of the accumulation).  The
program does not clamp, and `[0, 100]` is not respected even when every
per-chunk score lies in `[0, 100]`: under the binary64 semantics of the
accumulation, seven partials each scoring 100 merge to exactly
`100 + 2⁻⁴⁶ > 100` (second conjunct). -/
theorem c4_amended :
    (∀ (r0 : Scanner.PartialResult) (rest : List Scanner.PartialResult)
        (missingAlt : Nat),
      (Scanner.mergeResults (r0 :: rest) missingAlt).map Scanner.Report.score =
        some ((((r0 :: rest).map (fun r => (r.score : Rat))).sum) /
          (((r0 :: rest).length : Nat) : Rat))) ∧
    (∀ out : Rat,
      Scanner.FlMergeScore 7 (List.replicate 7 (100 : Int)) 0 out →
      out = 7036874417766401 / 70368744177664 ∧ 100 < out) := by
  constructor
  · intro r0 rest missingAlt
    rw [Scanner.mergeResults_cons, Option.map_some']
    congr 1
    simp only [div_eq_mul_inv, List.sum_map_mul_right, List.length_cons]
    congr 1
    by_cases h : 0 < missingAlt <;> simp [h]
  · intro out h
    have hval := Scanner.flMergeScore_seven out h
    constructor
    · rw [hval]; norm_num
    · rw [hval]; norm_num

/-- Witness for C4 (amended): the exact-arithmetic mean of scores 40 and
60 is 50, and the concrete seven-chunk floating-point chain exists and
exceeds 100. -/
theorem c4_amended_witness :
    (Scanner.mergeResults
        [{ issues := [], score := 40, disclaimer := "d", summary := "" },
         { issues := [], score := 60, disclaimer := "d", summary := "" }] 0).map
      Scanner.Report.score = some 50 ∧
    Scanner.FlMergeScore 7 (List.replicate 7 (100 : Int)) 0
      (7036874417766401 * (2:Rat) ^ (-46 : Int)) ∧
    100 < (7036874417766401 : Rat) / 70368744177664 := by
  have hchain : Scanner.FlMergeScore 7
      [100, 100, 100, 100, 100, 100, 100] 0
      (7036874417766401 * (2:Rat) ^ (-46 : Int)) := by
    refine Scanner.FlMergeScore.cons 100 _ 0 _ _ _
      ((Scanner.c4_round_div _).mpr rfl) ((Scanner.c4_round_a1 _).mpr rfl) ?_
    refine Scanner.FlMergeScore.cons 100 _ _ _ _ _
      ((Scanner.c4_round_div _).mpr rfl) ((Scanner.c4_round_a2 _).mpr rfl) ?_
    refine Scanner.FlMergeScore.cons 100 _ _ _ _ _
      ((Scanner.c4_round_div _).mpr rfl) ((Scanner.c4_round_a3 _).mpr rfl) ?_
    refine Scanner.FlMergeScore.cons 100 _ _ _ _ _
      ((Scanner.c4_round_div _).mpr rfl) ((Scanner.c4_round_a4 _).mpr rfl) ?_
    refine Scanner.FlMergeScore.cons 100 _ _ _ _ _
      ((Scanner.c4_round_div _).mpr rfl) ((Scanner.c4_round_a5 _).mpr rfl) ?_
    refine Scanner.FlMergeScore.cons 100 _ _ _ _ _
      ((Scanner.c4_round_div _).mpr rfl) ((Scanner.c4_round_a6 _).mpr rfl) ?_
    refine Scanner.FlMergeScore.cons 100 _ _ _ _ _
      ((Scanner.c4_round_div _).mpr rfl) ((Scanner.c4_round_a7 _).mpr rfl) ?_
    exact Scanner.FlMergeScore.nil _
  refine ⟨?_, hchain, ?_⟩
  · have h := c4_amended.1
      { issues := [], score := 40, disclaimer := "d", summary := "" }
      [{ issues := [], score := 60, disclaimer := "d", summary := "" }] 0
    rw [h]
    norm_num
  · have h := c4_amended.2 (7036874417766401 * (2:Rat) ^ (-46 : Int)) hchain
    rw [← h.1]
    exact h.2


/-- **C5 counterexample.** The extractor does not retry a failed model
call: with an oracle that fails every call, analysing a one-chunk
document makes exactly one model call (not three) and returns the
error value immediately. -/
theorem c5_counterexample :
    Scanner.analyze_accessibility Scanner.c5OracleFail ("<p>hi</p>".toList) true 0 =
      (1, .ok (.error "AI response failed: boom")) ∧
    (Scanner.analyze_accessibility Scanner.c5OracleFail ("<p>hi</p>".toList) true 0).1 ≠ 3 :=
  ⟨rfl, by decide⟩

/-- **C5 (amended).** When the model call for some chunk fails, the
per-chunk exception handler returns the failure value
`{"error": "AI response failed: <reason>"}` immediately: the pipeline
performs exactly one call for the failing chunk (one call per preceding
successful chunk), and the backoff decorator — which retries only
exceptions escaping the function body, up to 3 tries — does not re-run
anything, because the handler's return is not an exception.  The failure
value carries the reason and is returned to the caller. -/
theorem c5_amended (oracle : Nat → List Char → Except String Scanner.PartialResult)
    (html : List Char) (abbreviated : Bool) (missingAlt i : Nat) (e : String)
    (hi : i < (Scanner.chunkHtml html abbreviated).length)
    (hpre : ∀ j, j < i →
      (oracle j ((Scanner.chunkHtml html abbreviated).getD j [])).isOk = true)
    (hfail : oracle i ((Scanner.chunkHtml html abbreviated).getD i []) = .error e) :
    Scanner.analyze_accessibility oracle html abbreviated missingAlt =
      (i + 1, .ok (.error ("AI response failed: " ++ e))) := by
  have hgo := Scanner.analyzeGo_fail oracle missingAlt
    (Scanner.chunkHtml html abbreviated) 0 [] i e hi
    (by intro j hj; simpa using hpre j hj)
    (by simpa using hfail)
  rw [Nat.zero_add] at hgo
  exact Scanner.analyzeRetry_ok oracle missingAlt
    (Scanner.chunkHtml html abbreviated) 2 0 (i + 1) _ hgo

/-- Witness for C5 (amended): a failing first call on a one-chunk
document returns the failure value after exactly one call. -/
theorem c5_amended_witness :
    Scanner.analyze_accessibility (fun _ _ => .error "down") ("<p>".toList) true 0 =
      (1, .ok (.error "AI response failed: down")) :=
  c5_amended (fun _ _ => .error "down") ("<p>".toList) true 0 0 "down"
    (by decide) (by intro j hj; omega) rfl

namespace Scanner

/-! ## Tier resolver lemmas -/

theorem priceTier_mem (pp ap : Option String) (p : String) :
    priceTier pp ap p = "Free" ∨ priceTier pp ap p = "Pro" ∨
      priceTier pp ap p = "Agency" := by
  unfold priceTier
  by_cases h1 : ap = some p
  · simp [h1]
  · by_cases h2 : pp = some p <;> simp [h1, h2]

theorem tierFromSub_mem (pp ap : Option String) (sub : StripeSub) :
    tierFromSub pp ap sub = "Free" ∨ tierFromSub pp ap sub = "Pro" ∨
      tierFromSub pp ap sub = "Agency" := by
  unfold tierFromSub
  repeat' split
  all_goals first
    | exact Or.inl rfl
    | exact priceTier_mem _ _ _

theorem tierFromSubs_mem (pp ap : Option String) (subs : List StripeSub) :
    tierFromSubs pp ap subs = "Free" ∨ tierFromSubs pp ap subs = "Pro" ∨
      tierFromSubs pp ap subs = "Agency" := by
  unfold tierFromSubs
  repeat' split
  all_goals first
    | exact Or.inl rfl
    | exact tierFromSub_mem _ _ _

theorem fetchTier_cases (pp ap : Option String) (hc : Bool)
    (cl : Except String Bool) (sl : Except String (List StripeSub))
    (t : String) (h : fetchTier pp ap hc cl sl = .ok t) :
    t = "Free" ∨ t = "Pro" ∨ t = "Agency" := by
  unfold fetchTier at h
  repeat' split at h
  all_goals first
    | exact Except.noConfusion h
    | (injection h with h2; subst h2;
        first
          | exact Or.inl rfl
          | exact tierFromSubs_mem _ _ _)

theorem tierRetry_mem (pp ap : Option String) (hc : Bool)
    (cl : Nat → Except String Bool)
    (sl : Nat → Except String (List StripeSub)) :
    ∀ (n j : Nat), tierRetry pp ap hc cl sl n j = "Free" ∨
      tierRetry pp ap hc cl sl n j = "Pro" ∨
      tierRetry pp ap hc cl sl n j = "Agency" := by
  intro n
  induction n with
  | zero => intro j; exact Or.inl rfl
  | succ n ih =>
    intro j
    rw [tierRetry]
    split
    · rename_i t heq
      exact fetchTier_cases pp ap hc (cl j) (sl j) t heq
    · exact ih (j + 1)

theorem tierRetry_first_ok (pp ap : Option String) (hc : Bool)
    (cl : Nat → Except String Bool)
    (sl : Nat → Except String (List StripeSub)) (n j : Nat) (t : String)
    (h : fetchTier pp ap hc (cl j) (sl j) = .ok t) :
    tierRetry pp ap hc cl sl (n + 1) j = t := by
  rw [tierRetry, h]

theorem tierRetry_step_err (pp ap : Option String) (hc : Bool)
    (cl : Nat → Except String Bool)
    (sl : Nat → Except String (List StripeSub)) (n j : Nat) (e : String)
    (h : fetchTier pp ap hc (cl j) (sl j) = .error e) :
    tierRetry pp ap hc cl sl (n + 1) j = tierRetry pp ap hc cl sl n (j + 1) := by
  rw [tierRetry, h]

theorem fetchTier_free_noCustomer (pp ap : Option String)
    (sl : Except String (List StripeSub)) :
    fetchTier pp ap false (.ok false) sl = .ok "Free" := rfl

theorem fetchTier_ok_subs (pp ap : Option String) (hc : Bool)
    (cl : Except String Bool) (subs : List StripeSub)
    (hfirst : (if hc then Except.ok true else cl) = Except.ok true) :
    fetchTier pp ap hc cl (.ok subs) = .ok (tierFromSubs pp ap subs) := by
  unfold fetchTier
  rw [hfirst]

theorem tierFromSubs_inactive (pp ap : Option String) (subs : List StripeSub)
    (hne : subs ≠ [])
    (hall : ∀ s ∈ subs, isActiveOrTrialing s = false) :
    tierFromSubs pp ap subs = "Free" := by
  unfold tierFromSubs
  have hempty : subs.isEmpty = false := by
    cases subs with
    | nil => exact absurd rfl hne
    | cons s rest => rfl
  rw [if_neg (by rw [hempty]; exact Bool.false_ne_true)]
  have hfa : subs.filter isActiveOrTrialing = [] :=
    List.filter_eq_nil_iff.mpr (by intro s hs; simp [hall s hs])
  have hfi : subs.filter (fun s => !isActiveOrTrialing s) = subs :=
    List.filter_eq_self.mpr (by intro s hs; simp [hall s hs])
  rw [hfa, hfi, List.nil_append]
  cases subs with
  | nil => exact absurd rfl hne
  | cons s rest =>
    show tierFromSub pp ap s = "Free"
    unfold tierFromSub
    rw [if_pos (by rw [hall s (List.mem_cons_self s rest)]; rfl)]

theorem selected_sub_active (subs srest : List StripeSub) (sub : StripeSub)
    (hsel : subs.filter isActiveOrTrialing = sub :: srest) :
    isActiveOrTrialing sub = true := by
  have hmem : sub ∈ subs.filter isActiveOrTrialing := by
    rw [hsel]; exact List.mem_cons_self sub srest
  exact (List.mem_filter.mp hmem).2

theorem tierFromSubs_sel (pp ap : Option String)
    (subs srest : List StripeSub) (sub : StripeSub)
    (hsel : subs.filter isActiveOrTrialing = sub :: srest) :
    tierFromSubs pp ap subs = tierFromSub pp ap sub := by
  have hne : subs ≠ [] := by
    intro h
    rw [h] at hsel
    exact List.noConfusion hsel
  have hempty : subs.isEmpty = false := by
    cases subs with
    | nil => exact absurd rfl hne
    | cons s rest => rfl
  unfold tierFromSubs
  rw [if_neg (by rw [hempty]; exact Bool.false_ne_true), hsel, List.cons_append]

theorem tierFromSub_noPrice (pp ap : Option String) (sub : StripeSub)
    (hact : isActiveOrTrialing sub = true)
    (hip : truthyOpt sub.itemPrice = false)
    (hpl : truthyOpt sub.planId = false) :
    tierFromSub pp ap sub = "Free" := by
  unfold tierFromSub
  rw [if_neg (by rw [hact]; decide)]
  rw [if_neg (by rw [hip]; exact Bool.false_ne_true)]
  cases hpl2 : sub.planId with
  | none => rfl
  | some s =>
    rw [hpl2] at hpl
    simp only [truthyOpt, Bool.not_eq_false'] at hpl
    show (if s.isEmpty = true then "Free" else priceTier pp ap s) = "Free"
    rw [if_pos hpl]

theorem tierFromSub_unknownPrice (pp ap : Option String) (sub : StripeSub)
    (p : String)
    (hact : isActiveOrTrialing sub = true)
    (hip : sub.itemPrice = some p) (hpe : p.isEmpty = false)
    (hpp : pp ≠ some p) (hap : ap ≠ some p) :
    tierFromSub pp ap sub = "Free" := by
  unfold tierFromSub
  rw [if_neg (by rw [hact]; decide)]
  have htruthy : truthyOpt sub.itemPrice = true := by
    rw [hip]
    simp [truthyOpt, hpe]
  rw [if_pos htruthy, hip]
  show (if p.isEmpty = true then "Free" else priceTier pp ap p) = "Free"
  rw [if_neg (by rw [hpe]; exact Bool.false_ne_true)]
  unfold priceTier
  rw [if_neg hap, if_neg hpp]

end Scanner

/-- **C10.** The tier resolver is total over the billing provider's error
behaviour: `get_user_tier` always returns one of `"Free"`, `"Pro"`,
`"Agency"` and never raises, and each enumerated degraded condition
yields `"Free"`: a provider exception surviving all three bounded
retries, a missing customer, an empty subscription list, a subscription
list with no active/trialing subscription, a selected subscription with
no (truthy) price id under items or the legacy plan, and a selected
subscription whose price id matches neither configured price.  The
`"Enterprise"` tier is never produced. -/
theorem c10_tier_total :
    (∀ (pp ap : Option String) (hc : Bool) (cl : Nat → Except String Bool)
        (sl : Nat → Except String (List Scanner.StripeSub)),
      (Scanner.get_user_tier pp ap hc cl sl = "Free" ∨
        Scanner.get_user_tier pp ap hc cl sl = "Pro" ∨
        Scanner.get_user_tier pp ap hc cl sl = "Agency") ∧
      Scanner.get_user_tier pp ap hc cl sl ≠ "Enterprise") ∧
    (∀ (pp ap : Option String) (hc : Bool) (cl : Nat → Except String Bool)
        (sl : Nat → Except String (List Scanner.StripeSub)) (err : Nat → String),
      (∀ j, j < 3 → Scanner.fetchTier pp ap hc (cl j) (sl j) = .error (err j)) →
      Scanner.get_user_tier pp ap hc cl sl = "Free") ∧
    (∀ (pp ap : Option String) (cl : Nat → Except String Bool)
        (sl : Nat → Except String (List Scanner.StripeSub)),
      cl 0 = .ok false →
      Scanner.get_user_tier pp ap false cl sl = "Free") ∧
    (∀ (pp ap : Option String) (hc : Bool) (cl : Nat → Except String Bool)
        (sl : Nat → Except String (List Scanner.StripeSub)),
      (if hc then Except.ok true else cl 0) = Except.ok true →
      sl 0 = .ok [] →
      Scanner.get_user_tier pp ap hc cl sl = "Free") ∧
    (∀ (pp ap : Option String) (hc : Bool) (cl : Nat → Except String Bool)
        (sl : Nat → Except String (List Scanner.StripeSub))
        (subs : List Scanner.StripeSub),
      (if hc then Except.ok true else cl 0) = Except.ok true →
      sl 0 = .ok subs → subs ≠ [] →
      (∀ s ∈ subs, Scanner.isActiveOrTrialing s = false) →
      Scanner.get_user_tier pp ap hc cl sl = "Free") ∧
    (∀ (pp ap : Option String) (hc : Bool) (cl : Nat → Except String Bool)
        (sl : Nat → Except String (List Scanner.StripeSub))
        (subs srest : List Scanner.StripeSub) (sub : Scanner.StripeSub),
      (if hc then Except.ok true else cl 0) = Except.ok true →
      sl 0 = .ok subs →
      subs.filter Scanner.isActiveOrTrialing = sub :: srest →
      Scanner.truthyOpt sub.itemPrice = false →
      Scanner.truthyOpt sub.planId = false →
      Scanner.get_user_tier pp ap hc cl sl = "Free") ∧
    (∀ (pp ap : Option String) (hc : Bool) (cl : Nat → Except String Bool)
        (sl : Nat → Except String (List Scanner.StripeSub))
        (subs srest : List Scanner.StripeSub) (sub : Scanner.StripeSub)
        (p : String),
      (if hc then Except.ok true else cl 0) = Except.ok true →
      sl 0 = .ok subs →
      subs.filter Scanner.isActiveOrTrialing = sub :: srest →
      sub.itemPrice = some p → p.isEmpty = false →
      pp ≠ some p → ap ≠ some p →
      Scanner.get_user_tier pp ap hc cl sl = "Free") := by
  refine ⟨?_, ?_, ?_, ?_, ?_, ?_, ?_⟩
  · intro pp ap hc cl sl
    have h := Scanner.tierRetry_mem pp ap hc cl sl 3 0
    refine ⟨h, ?_⟩
    rcases h with h | h | h <;> rw [Scanner.get_user_tier, h] <;> decide
  · intro pp ap hc cl sl err h
    have e0 : Scanner.tierRetry pp ap hc cl sl 3 0 =
        Scanner.tierRetry pp ap hc cl sl 2 1 :=
      Scanner.tierRetry_step_err pp ap hc cl sl 2 0 (err 0) (h 0 (by omega))
    have e1 : Scanner.tierRetry pp ap hc cl sl 2 1 =
        Scanner.tierRetry pp ap hc cl sl 1 2 :=
      Scanner.tierRetry_step_err pp ap hc cl sl 1 1 (err 1) (h 1 (by omega))
    have e2 : Scanner.tierRetry pp ap hc cl sl 1 2 =
        Scanner.tierRetry pp ap hc cl sl 0 3 :=
      Scanner.tierRetry_step_err pp ap hc cl sl 0 2 (err 2) (h 2 (by omega))
    rw [Scanner.get_user_tier, e0, e1, e2]
    rfl
  · intro pp ap cl sl hcl
    refine Scanner.tierRetry_first_ok pp ap false cl sl 2 0 "Free" ?_
    rw [hcl]
    exact Scanner.fetchTier_free_noCustomer pp ap (sl 0)
  · intro pp ap hc cl sl hfirst hsl
    refine Scanner.tierRetry_first_ok pp ap hc cl sl 2 0 "Free" ?_
    rw [hsl, Scanner.fetchTier_ok_subs pp ap hc (cl 0) [] hfirst]
    rfl
  · intro pp ap hc cl sl subs hfirst hsl hne hall
    refine Scanner.tierRetry_first_ok pp ap hc cl sl 2 0 "Free" ?_
    rw [hsl, Scanner.fetchTier_ok_subs pp ap hc (cl 0) subs hfirst,
      Scanner.tierFromSubs_inactive pp ap subs hne hall]
  · intro pp ap hc cl sl subs srest sub hfirst hsl hsel hip hpl
    refine Scanner.tierRetry_first_ok pp ap hc cl sl 2 0 "Free" ?_
    rw [hsl, Scanner.fetchTier_ok_subs pp ap hc (cl 0) subs hfirst,
      Scanner.tierFromSubs_sel pp ap subs srest sub hsel,
      Scanner.tierFromSub_noPrice pp ap sub
        (Scanner.selected_sub_active subs srest sub hsel) hip hpl]
  · intro pp ap hc cl sl subs srest sub p hfirst hsl hsel hip hpe hpp hap
    refine Scanner.tierRetry_first_ok pp ap hc cl sl 2 0 "Free" ?_
    rw [hsl, Scanner.fetchTier_ok_subs pp ap hc (cl 0) subs hfirst,
      Scanner.tierFromSubs_sel pp ap subs srest sub hsel,
      Scanner.tierFromSub_unknownPrice pp ap sub p
        (Scanner.selected_sub_active subs srest sub hsel) hip hpe hpp hap]

/-- Witness for C10 at concrete inputs: an email search that finds no
customer yields `"Free"`, and an active subscription with an
unrecognised price id yields `"Free"`. -/
theorem c10_tier_total_witness :
    Scanner.get_user_tier (some "price_pro") (some "price_ag") false
      (fun _ => .ok false) (fun _ => .ok []) = "Free" ∧
    Scanner.get_user_tier (some "price_pro") (some "price_ag") true
      (fun _ => .ok true)
      (fun _ => .ok [⟨some "active", some "price_other", none⟩]) = "Free" :=
  ⟨c10_tier_total.2.2.1 (some "price_pro") (some "price_ag")
      (fun _ => .ok false) (fun _ => .ok []) rfl,
    c10_tier_total.2.2.2.2.2.2 (some "price_pro") (some "price_ag") true
      (fun _ => .ok true)
      (fun _ => .ok [⟨some "active", some "price_other", none⟩])
      [⟨some "active", some "price_other", none⟩] []
      ⟨some "active", some "price_other", none⟩
      "price_other" rfl rfl rfl rfl rfl (by decide) (by decide)⟩

/-- **C8.** When the primary browser-rendering strategy raises and the
plain-HTTP fallback succeeds, `fetch_page_content` returns the fallback
body as fetched HTML — the primary exception is never propagated; when
both strategies fail, it returns the failure dictionary with a
user-facing reason instead of raising. -/
theorem c8_fetch_fallback (url u : List Char) (e1 e2 : String)
    (body : List Char) (hn : Scanner.normalize_url url = .ok u) :
    Scanner.fetch_page_content url (.error e1) (.ok body) =
      .ok (.fetched body) ∧
    Scanner.fetch_page_content url (.error e1) (.error e2) =
      .ok (.fetchFailed
        ("Failed to fetch " ++ String.mk u ++
          ". Check URL validity or try again later.")
        0 "Unable to scan due to fetch error.") := by
  unfold Scanner.fetch_page_content
  rw [hn]
  exact ⟨rfl, rfl⟩

/-- Witness for C8 at a concrete input: `"nasa.gov"` normalizes, the
primary strategy raises, and the fallback body is returned as HTML. -/
theorem c8_fetch_fallback_witness :
    Scanner.fetch_page_content ("nasa.gov".toList) (.error "timeout")
      (.ok ("<p>".toList)) = .ok (.fetched ("<p>".toList)) :=
  (c8_fetch_fallback ("nasa.gov".toList) ("https://nasa.gov".toList)
    "timeout" "refused" ("<p>".toList) rfl).1

/-- **C1 (code bug evidence).** A failed analysis does populate the Scan
Cache: starting from an empty cache, a scan whose fetch succeeds and
whose analyzer returns the failure value `{"error": "AI response failed:
boom", ...}` falls through the error check (the `st.stop()` is behind a
Retry button that has not been clicked) and stores the failure value in
`scan_cache` under the scan's cache key — where a later same-key scan
will find it. -/
theorem c1_failed_compute_cached :
    ((Scanner.scanStep { cache := [], results := none, scanCount := 0 }
        ("a@b.c".toList) ("nasa.gov".toList) "Free" false
        (.fetched ("<p>".toList))
        (.ok (.error "AI response failed: boom"))).1).cache.lookup
      (Scanner.scanKey ("a@b.c".toList) ("https://nasa.gov".toList) false) =
      some { analysis := .error "AI response failed: boom",
             html := "<p>".toList, url := "https://nasa.gov".toList } := by
  rfl

/-- **C9 counterexample.** Two sequential same-key scans do not always
invoke the compute at most once: when the first scan's fetch fails,
nothing is cached (the missing `"html"` key raises, caught by the outer
`except`), so the second scan enters the expensive compute again instead
of being a cache hit. -/
theorem c9_counterexample :
    (Scanner.scanStep { cache := [], results := none, scanCount := 0 }
        ("a@b.c".toList) ("nasa.gov".toList) "Free" false
        (.fetchFailed "f" 0 "s") (.error "unused")).2 = true ∧
    (Scanner.scanStep
        ((Scanner.scanStep { cache := [], results := none, scanCount := 0 }
            ("a@b.c".toList) ("nasa.gov".toList) "Free" false
            (.fetchFailed "f" 0 "s") (.error "unused")).1)
        ("a@b.c".toList) ("nasa.gov".toList) "Free" false
        (.fetchFailed "f" 0 "s") (.error "unused")).2 = true := ⟨rfl, rfl⟩

/-- **C9 (amended).** Provided the first scan's compute stores a result —
its fetch succeeds and the analyzer returns a value rather than raising —
a second sequential scan by the same identity, in the same mode, of any
raw URL normalizing to the same normalized URL is a cache hit: it does
not enter the fetch+analyze compute, and its results are equal by value
to the first scan's. -/
theorem c9_amended (st : Scanner.ScanState) (email u1 u2 : List Char)
    (tier : String) (flag : Bool) (html : List Char)
    (analysis : Except String Scanner.Report) (fetch2 : Scanner.FetchResult)
    (analyze2 : Except String (Except String Scanner.Report))
    (hnorm : Scanner.safe_normalize (Scanner.pyStrip u2) =
      Scanner.safe_normalize (Scanner.pyStrip u1))
    (hne : Scanner.safe_normalize (Scanner.pyStrip u1) ≠ [])
    (hmiss : st.cache.lookup
      (Scanner.scanKey email (Scanner.safe_normalize (Scanner.pyStrip u1))
        (if Scanner.paidTier tier then flag else false)) = none) :
    (Scanner.scanStep st email u1 tier flag (.fetched html) (.ok analysis)).2 = true ∧
    (Scanner.scanStep
        ((Scanner.scanStep st email u1 tier flag (.fetched html) (.ok analysis)).1)
        email u2 tier flag fetch2 analyze2).2 = false ∧
    (Scanner.scanStep
        ((Scanner.scanStep st email u1 tier flag (.fetched html) (.ok analysis)).1)
        email u2 tier flag fetch2 analyze2).1.results =
      (Scanner.scanStep st email u1 tier flag (.fetched html) (.ok analysis)).1.results := by
  have h1 : Scanner.scanStep st email u1 tier flag (.fetched html) (.ok analysis) =
      (⟨(Scanner.scanKey email (Scanner.safe_normalize (Scanner.pyStrip u1))
            (if Scanner.paidTier tier then flag else false),
          ⟨analysis, html, Scanner.safe_normalize (Scanner.pyStrip u1)⟩) :: st.cache,
        some ⟨analysis, html, Scanner.safe_normalize (Scanner.pyStrip u1)⟩,
        st.scanCount + 1⟩, true) := by
    simp only [Scanner.scanStep]
    rw [if_neg hne, hmiss]
  have h2 : Scanner.scanStep
      ((Scanner.scanStep st email u1 tier flag (.fetched html) (.ok analysis)).1)
      email u2 tier flag fetch2 analyze2 =
      (⟨(Scanner.scanKey email (Scanner.safe_normalize (Scanner.pyStrip u1))
            (if Scanner.paidTier tier then flag else false),
          ⟨analysis, html, Scanner.safe_normalize (Scanner.pyStrip u1)⟩) :: st.cache,
        some ⟨analysis, html, Scanner.safe_normalize (Scanner.pyStrip u1)⟩,
        st.scanCount + 1⟩, false) := by
    rw [h1]
    simp only [Scanner.scanStep]
    rw [hnorm, if_neg hne]
    simp [List.lookup]
  rw [h2, h1]
  exact ⟨rfl, rfl, rfl⟩

/-- Witness for C9 (amended): after a successful scan of `"nasa.gov"`,
a scan of `"https://nasa.gov"` by the same identity in the same mode is
a cache hit and does not re-enter the compute. -/
theorem c9_amended_witness :
    (Scanner.scanStep
        ((Scanner.scanStep { cache := [], results := none, scanCount := 0 }
            ("a@b.c".toList) ("nasa.gov".toList) "Free" false
            (.fetched ("<p>".toList))
            (.ok (.ok { issues := [], score := 0, disclaimer := "", summary := "" }))).1)
        ("a@b.c".toList) ("https://nasa.gov".toList) "Free" false
        (.fetchFailed "f" 0 "s") (.error "unused")).2 = false :=
  (c9_amended { cache := [], results := none, scanCount := 0 }
    ("a@b.c".toList) ("nasa.gov".toList) ("https://nasa.gov".toList) "Free" false
    ("<p>".toList)
    (.ok { issues := [], score := 0, disclaimer := "", summary := "" })
    (.fetchFailed "f" 0 "s") (.error "unused")
    (by decide) (by decide) rfl).2.1
